import Mathlib

/-!
# Verification of `pelican_tools/article.py`

Shallow embedding of the command line article generator: the `validate`
pipeline stage, the `generate_article` stage (slug derivation, date
derivation, header-formatter invocation, output path computation), the
`interactive` argument collection stage and the `main` pipeline, together
with proofs of the specified properties.

External collaborators (`pelican.utils.slugify`, the pelican header
builders, `PyInquirer`, `pathlib`) are not part of the repository source;
where a property depends on them they are modelled from the spec or from
their documented semantics, and this is recorded in the doc comment of
the corresponding definition.
-/

namespace PelicanTools

/-- `MARKUP_CHOICES = ["md", "rst"]` from `article.py`. -/
def MARKUP_CHOICES : List String := ["md", "rst"]

/-- `TYPE_CHOICES = ["article", "page"]` from `article.py`. -/
def TYPE_CHOICES : List String := ["article", "page"]

/-- `STATUS_CHOICES = ["draft", "hidden", "published"]` from `article.py`. -/
def STATUS_CHOICES : List String := ["draft", "hidden", "published"]

/-- Python's `str.lower()` on the character level: basic latin letters are
    mapped to lower case, everything else unchanged (the inputs of this
    program are ASCII option strings). -/
def pyLower (s : String) : String := String.mk (s.data.map Char.toLower)

/-- Embedding of `validate(markup, **parsed_args)` (`article.py`, lines 28-40):
    raises `ValueError` when `markup.lower()` is not in `MARKUP_CHOICES`,
    otherwise returns normally. The raised exception is the `.error` case. -/
def validate (markup : String) : Except String Unit :=
  if pyLower markup ∉ MARKUP_CHOICES then
    Except.error (markup ++ " is not a valid markup format, available options are "
      ++ String.intercalate ", " MARKUP_CHOICES ++ " ")
  else
    Except.ok ()

/-- `true` exactly when the pipeline stage raised. -/
def raisesError (r : Except String Unit) : Bool :=
  match r with
  | Except.error _ => true
  | Except.ok _ => false

/-! ## Slug normalizer

`pelican.utils.slugify` is an external collaborator (it is imported, its code
is not in this repository's source). -/

/-- Characters that the slug normalizer keeps: word characters (letters,
    digits, underscore), spaces and hyphens; everything else is removed. -/
def keepChar (c : Char) : Bool :=
  c.isAlphanum || c == '_' || c == ' ' || c == '-'

/-- Strip leading and trailing spaces. -/
def stripSpaces (l : List Char) : List Char :=
  ((l.dropWhile (fun c => c == ' ')).reverse.dropWhile (fun c => c == ' ')).reverse

/-- Is the character a hyphen or a space (a member of a `[-\s]+` run)? -/
def isHS (c : Char) : Bool := c == '-' || c == ' '

/-- Replace every maximal run of hyphens and spaces by a single hyphen.
    The boolean records whether the previous character belonged to such a
    run (in which case further run characters are dropped). -/
def collapseRuns : Bool → List Char → List Char
  | _, [] => []
  | prev, c :: rest =>
    if isHS c then
      if prev then collapseRuns true rest
      else '-' :: collapseRuns true rest
    else
      c :: collapseRuns false rest

/-- No two consecutive hyphens: the shape invariant of collapsed output. -/
def noConsecHyphen : List Char → Bool
  | [] => true
  | c :: rest => !(c == '-' && rest.head? == some '-') && noConsecHyphen rest

/-- Modelled from the spec: `pelican.utils.slugify` is an external
    collaborator whose code is not in the repository source. The spec
    describes the Slug Normalizer as converting a title or custom slug
    string into a URL/filename-safe token, "lowercase, space-free,
    hyphenated": non word/space/hyphen characters are removed, surrounding
    whitespace is stripped, the result is lower-cased and runs of hyphens
    and whitespace are collapsed to single hyphens. -/
def slugify (s : String) : String :=
  String.mk (collapseRuns false (((stripSpaces (s.data.filter keepChar))).map Char.toLower))

/-- Python's `str.replace(" ", "-")`: a single-character replacement is a
    character-wise map. -/
def replaceSpaceHyphen (s : String) : String :=
  String.mk (s.data.map (fun c => if c == ' ' then '-' else c))

/-- Python's `slug or title` (`article.py` line 65): a falsy slug
    (`None` or the empty string) falls back to the title. -/
def pyOrStr : Option String → String → String
  | none, t => t
  | some s, t => if s == "" then t else s

/-- The slug derived on `article.py` line 65:
    `slugify(slug or title).replace(" ", "-")`. -/
def slugOf (slug : Option String) (title : String) : String :=
  replaceSpaceHyphen (slugify (pyOrStr slug title))

/-! ## Date derivation -/

/-- The components of `datetime.now()` that the program can observe. -/
structure DateTime where
  year : Nat
  month : Nat
  day : Nat
  hour : Nat
  minute : Nat
  second : Nat
deriving DecidableEq

/-- Zero-pad the decimal representation of `n` to `width` digits. -/
def zeroPad (width : Nat) (n : Nat) : String :=
  String.mk (List.replicate (width - (toString n).length) '0') ++ toString n

/-- `strftime("%Y-%m-%d %H:%M")`: the minute-precision local timestamp
    format used on `article.py` line 73.  Only the fields down to the
    minute appear; seconds are dropped. -/
def strftimeMinute (dt : DateTime) : String :=
  zeroPad 4 dt.year ++ "-" ++ zeroPad 2 dt.month ++ "-" ++ zeroPad 2 dt.day
    ++ " " ++ zeroPad 2 dt.hour ++ ":" ++ zeroPad 2 dt.minute

/-! ## Output path

`pathlib.PurePosixPath` semantics, modelled from Python's documented
behaviour: a path is a root flag plus a list of components; parsing drops
empty components and `"."` components; `/` concatenates unless the right
operand is absolute; rendering joins the components with `"/"`. -/

/-- Split a character list at every `'/'`. -/
def splitOnSlash : List Char → List (List Char)
  | [] => [[]]
  | c :: rest =>
    match splitOnSlash rest with
    | [] => [[]]
    | seg :: segs =>
      if c == '/' then [] :: seg :: segs else (c :: seg) :: segs

/-- A pure POSIX path: an absolute flag and the non-trivial components. -/
structure PurePath where
  absolute : Bool
  parts : List String
deriving DecidableEq

/-- Parse a string into a `PurePath` the way `pathlib` does: the path is
    absolute when it starts with `'/'`; empty and `"."` segments are
    dropped. -/
def parsePath (s : String) : PurePath :=
  { absolute := s.data.head? == some '/'
    parts := ((splitOnSlash s.data).map (fun cs => String.mk cs)).filter
      (fun seg => !(seg == "") && !(seg == ".")) }

/-- The `/` operator on paths: if the right operand is absolute it wins,
    otherwise the components are concatenated. -/
def joinPath (p q : PurePath) : PurePath :=
  if q.absolute then q
  else { absolute := p.absolute, parts := p.parts ++ q.parts }

/-- Join components with `"/"`. -/
def joinSegs : List String → String
  | [] => ""
  | [s] => s
  | s :: rest => s ++ "/" ++ joinSegs rest

/-- `str()` of a path: `"."` for the empty relative path, a leading `"/"`
    for absolute paths. -/
def pathToString (p : PurePath) : String :=
  if p.absolute then "/" ++ joinSegs p.parts
  else if p.parts == [] then "." else joinSegs p.parts

/-! ## The generator -/

/-- Which of the two external header builders is selected
    (`build_markdown_header` vs `build_header`). -/
inductive Formatter
  | markdown
  | rst
deriving DecidableEq

/-- The positional arguments of one invocation of the selected header
    builder (`article.py` lines 77-85): title, date, author, categories,
    tags, slug, status. -/
structure HeaderArgs where
  title : String
  date : Option String
  author : Option String
  categories : Option (List String)
  tags : Option (List String)
  slug : String
  status : Option String
deriving DecidableEq

/-- Python's `tags.split(",")`: split at every comma, keeping empty pieces. -/
def splitChar (sep : Char) : List Char → List (List Char)
  | [] => [[]]
  | c :: rest =>
    match splitChar sep rest with
    | [] => [[]]
    | seg :: segs =>
      if c == sep then [] :: seg :: segs else (c :: seg) :: segs

/-- `s.split(sep)` for a one-character separator. -/
def pySplit (sep : Char) (s : String) : List String :=
  (splitChar sep s.data).map (fun cs => String.mk cs)

/-- The observable effect of `generate_article`: which formatter was
    selected, the arguments it was invoked with, and the output file path. -/
structure GenResult where
  formatter : Formatter
  header : HeaderArgs
  filePath : String
deriving DecidableEq

/-- Embedding of the body of `generate_article` (`article.py` lines 43-90)
    up to the invocation of the external header builder: the derived slug,
    the formatter selection (`markup.lower() == "md"`), the date (only for
    `content_type == "article"`, with minute precision), the category list
    (`[category] if category else None`), the tag list
    (`tags.split(",") if tags else None`), and the output path
    `Path() / path / f"{slug}.{markup}"`.  `datetime.now()` is passed in
    as `now`. -/
def generate_article_call (content_type : Option String) (title : String)
    (slug : Option String) (tags : Option String) (markup : String)
    (category : Option String) (author : Option String) (path : String)
    (status : Option String) (now : DateTime) : GenResult :=
  let slugV := replaceSpaceHyphen (slugify (pyOrStr slug title))
  let formatter := if pyLower markup == "md" then Formatter.markdown else Formatter.rst
  let date := if content_type == some "article" then some (strftimeMinute now) else none
  let categories : Option (List String) :=
    match category with
    | some c => if c == "" then none else some [c]
    | none => none
  let tagsList : Option (List String) :=
    match tags with
    | some t => if t == "" then none else some (pySplit ',' t)
    | none => none
  let file_dir := joinPath { absolute := false, parts := [] } (parsePath path)
  let file_path := joinPath file_dir (parsePath (slugV ++ "." ++ markup))
  { formatter := formatter
    header := { title := title, date := date, author := author,
                categories := categories, tags := tagsList,
                slug := slugV, status := status }
    filePath := pathToString file_path }

/-- `generate_article` itself: the external header builders
    `build_header` and `build_markdown_header` are black-box collaborators
    and are passed as the function parameters `bh` and `bmh`; the result is
    `(file_content, file_path)`. -/
def generate_article (bh bmh : HeaderArgs → String)
    (content_type : Option String) (title : String) (slug : Option String)
    (tags : Option String) (markup : String) (category : Option String)
    (author : Option String) (path : String) (status : Option String)
    (now : DateTime) : String × String :=
  let r := generate_article_call content_type title slug tags markup category
    author path status now
  ((match r.formatter with
    | Formatter.markdown => bmh
    | Formatter.rst => bh) r.header, r.filePath)

/-! ## Argument collection and the main pipeline -/

/-- The keyword arguments `main` receives from `click`
    (`article.py` lines 191-232): `tags` defaults to `""`, `path` to
    `"content"`, `markup` to the environment-dependent default;
    `content_type`, `category`, `slug` and `status` default to `None`. -/
structure Args where
  title : String
  content_type : Option String
  author : Option String
  tags : Option String
  category : Option String
  slug : Option String
  status : Option String
  path : String
  markup : String
deriving DecidableEq

/-- The answers returned by the two `PyInquirer.prompt` calls inside
    `interactive` (every prompt answer is a string). -/
structure PromptAnswers where
  content_type : String
  title : String
  author : String
  tags : String
  category : String
  slug : String
  status : String
  markup : String
  path : String
deriving DecidableEq

/-- The `validate` lambda of the title question (`article.py` line 137):
    `lambda text: bool(text) or "Must provide a title"` — `True` for a
    non-empty answer, the error message for an empty one. -/
def titleQuestionValidate (text : String) : Sum Bool String :=
  if text == "" then Sum.inr "Must provide a title" else Sum.inl true

/-- Modelled from the spec: `PyInquirer` is an external collaborator; per
    the spec it re-prompts on a failed validator rather than aborting, so
    the answers `interactive` returns are ones its validators accept.
    `interactive` (`article.py` lines 121-188) merges the prompt answers
    over the seed values; every field of the result comes from the answers. -/
def interactive (values : Args) (answers : PromptAnswers) : Args :=
  { title := answers.title
    content_type := some answers.content_type
    author := some answers.author
    tags := some answers.tags
    category := some answers.category
    slug := some answers.slug
    status := some answers.status
    path := answers.path
    markup := answers.markup }

/-- `parsed_args = interactive(kwargs) if prompt else kwargs`
    (`article.py` line 235). -/
def parsedArgs (prompt : Bool) (kwargs : Args) (answers : PromptAnswers) : Args :=
  if prompt then interactive kwargs answers else kwargs

/-- The filesystem as the program observes it: the files written, most
    recent first. -/
abbrev FS := List (String × String)

/-- `save_file(file_content, file_path)` (`article.py` lines 107-118):
    opens the path for writing (creating or truncating) and writes the
    content. -/
def save_file (file_content : String) (file_path : String) (fs : FS) : FS :=
  (file_path, file_content) :: fs

/-- Embedding of `main` (`article.py` lines 232-239): collect the
    arguments (interactively when `prompt`), validate, generate, review
    (interactive mode only, modelled by the `reviewed` editing function),
    save.  A raised `ValueError` is the `.error` case and leaves the
    filesystem untouched.  On success the result carries the generator
    call record so that runs can be observed. -/
def main (bh bmh : HeaderArgs → String) (prompt : Bool) (kwargs : Args)
    (answers : PromptAnswers) (reviewed : String → String) (now : DateTime)
    (fs : FS) : Except String GenResult × FS :=
  let parsed := parsedArgs prompt kwargs answers
  match validate parsed.markup with
  | Except.error e => (Except.error e, fs)
  | Except.ok _ =>
    let r := generate_article_call parsed.content_type parsed.title parsed.slug
      parsed.tags parsed.markup parsed.category parsed.author parsed.path
      parsed.status now
    let file_content := (match r.formatter with
      | Formatter.markdown => bmh
      | Formatter.rst => bh) r.header
    let file_content := if prompt then reviewed file_content else file_content
    (Except.ok r, save_file file_content r.filePath fs)


/-! ## Helper lemmas: characters and strings -/

theorem uint32_le_iff (a b : UInt32) : a ≤ b ↔ a.toNat ≤ b.toNat := by
  rw [UInt32.le_def, BitVec.le_def]
  exact Iff.intro (fun h => h) (fun h => h)

theorem char_isUpper_eq (c : Char) :
    c.isUpper = decide (65 ≤ c.toNat ∧ c.toNat ≤ 90) := by
  show (c.val ≥ 65 && c.val ≤ 90) = _
  rw [Bool.eq_iff_iff, Bool.and_eq_true, decide_eq_true_iff,
    decide_eq_true_iff, decide_eq_true_iff, ge_iff_le,
    uint32_le_iff, uint32_le_iff]
  exact Iff.intro (fun h => h) (fun h => h)

theorem char_isLower_eq (c : Char) :
    c.isLower = decide (97 ≤ c.toNat ∧ c.toNat ≤ 122) := by
  show (c.val ≥ 97 && c.val ≤ 122) = _
  rw [Bool.eq_iff_iff, Bool.and_eq_true, decide_eq_true_iff,
    decide_eq_true_iff, decide_eq_true_iff, ge_iff_le,
    uint32_le_iff, uint32_le_iff]
  exact Iff.intro (fun h => h) (fun h => h)

theorem char_isDigit_eq (c : Char) :
    c.isDigit = decide (48 ≤ c.toNat ∧ c.toNat ≤ 57) := by
  show (c.val ≥ 48 && c.val ≤ 57) = _
  rw [Bool.eq_iff_iff, Bool.and_eq_true, decide_eq_true_iff,
    decide_eq_true_iff, decide_eq_true_iff, ge_iff_le,
    uint32_le_iff, uint32_le_iff]
  exact Iff.intro (fun h => h) (fun h => h)

theorem char_isAlphanum_eq (c : Char) :
    c.isAlphanum = decide ((65 ≤ c.toNat ∧ c.toNat ≤ 90) ∨
      (97 ≤ c.toNat ∧ c.toNat ≤ 122) ∨ (48 ≤ c.toNat ∧ c.toNat ≤ 57)) := by
  show ((c.isUpper || c.isLower) || c.isDigit) = _
  rw [char_isUpper_eq, char_isLower_eq, char_isDigit_eq, Bool.eq_iff_iff]
  simp only [Bool.or_eq_true, decide_eq_true_iff]
  tauto

theorem char_eq_iff_toNat (c d : Char) : c = d ↔ c.toNat = d.toNat := by
  constructor
  · intro h; cases h; rfl
  · intro h
    apply Char.eq_of_val_eq
    apply UInt32.toNat.inj
    exact h

theorem char_toLower_eq (c : Char) :
    Char.toLower c =
      if 65 ≤ c.toNat ∧ c.toNat ≤ 90 then Char.ofNat (c.toNat + 32) else c := rfl

theorem char_toNat_ofNat_shift (c : Char) (h : 65 ≤ c.toNat ∧ c.toNat ≤ 90) :
    (Char.ofNat (c.toNat + 32)).toNat = c.toNat + 32 := by
  have hv : Nat.isValidChar (c.toNat + 32) := Or.inl (by omega)
  unfold Char.ofNat
  rw [dif_pos hv]
  unfold Char.ofNatAux
  simp [Char.toNat, UInt32.toNat]

theorem char_toNat_toLower (c : Char) :
    (Char.toLower c).toNat =
      if 65 ≤ c.toNat ∧ c.toNat ≤ 90 then c.toNat + 32 else c.toNat := by
  rw [char_toLower_eq]
  by_cases h : 65 ≤ c.toNat ∧ c.toNat ≤ 90
  · rw [if_pos h, if_pos h, char_toNat_ofNat_shift c h]
  · rw [if_neg h, if_neg h]

theorem char_toLower_isUpper_false (c : Char) : (Char.toLower c).isUpper = false := by
  rw [char_isUpper_eq, decide_eq_false_iff_not, char_toNat_toLower]
  by_cases h : 65 ≤ c.toNat ∧ c.toNat ≤ 90
  · rw [if_pos h]; omega
  · rw [if_neg h]; omega

theorem char_toLower_eq_self (c : Char) (h : c.isUpper = false) :
    Char.toLower c = c := by
  rw [char_isUpper_eq, decide_eq_false_iff_not] at h
  rw [char_toLower_eq, if_neg h]

theorem char_beq_iff_toNat (c d : Char) : (c == d) = decide (c.toNat = d.toNat) := by
  rw [Bool.eq_iff_iff, beq_iff_eq, decide_eq_true_iff]
  exact char_eq_iff_toNat c d

theorem keepChar_eq (c : Char) :
    keepChar c = decide ((65 ≤ c.toNat ∧ c.toNat ≤ 90) ∨
      (97 ≤ c.toNat ∧ c.toNat ≤ 122) ∨ (48 ≤ c.toNat ∧ c.toNat ≤ 57) ∨
      c.toNat = 95 ∨ c.toNat = 32 ∨ c.toNat = 45) := by
  unfold keepChar
  rw [char_isAlphanum_eq, char_beq_iff_toNat, char_beq_iff_toNat, char_beq_iff_toNat]
  rw [Bool.eq_iff_iff]
  simp only [Bool.or_eq_true, decide_eq_true_iff]
  have h95 : Char.toNat '_' = 95 := rfl
  have h32 : Char.toNat ' ' = 32 := rfl
  have h45 : Char.toNat '-' = 45 := rfl
  rw [h95, h32, h45]
  tauto

theorem keepChar_toLower {c : Char} (h : keepChar c = true) :
    keepChar (Char.toLower c) = true := by
  rw [keepChar_eq, decide_eq_true_iff] at h ⊢
  rw [char_toNat_toLower]
  by_cases hu : 65 ≤ c.toNat ∧ c.toNat ≤ 90
  · rw [if_pos hu]; omega
  · rw [if_neg hu]; omega

theorem str_data_append (a b : String) : (a ++ b).data = a.data ++ b.data := by
  cases a; cases b; rfl

theorem str_eq_iff_data (a b : String) : a = b ↔ a.data = b.data := by
  cases a; cases b
  constructor
  · intro h; cases h; rfl
  · intro h; cases h; rfl

/-! ## Helper lemmas: the slug normalizer -/

theorem mem_collapseRuns {c : Char} : ∀ (p : Bool) (l : List Char),
    c ∈ collapseRuns p l → c = '-' ∨ (c ∈ l ∧ isHS c = false) := by
  intro p l
  induction l generalizing p with
  | nil => intro h; simp [collapseRuns] at h
  | cons a rest ih =>
    intro h
    rw [collapseRuns] at h
    by_cases ha : isHS a
    · rw [if_pos ha] at h
      by_cases hp : p
      · subst hp; rw [if_pos rfl] at h
        rcases ih true h with h1 | ⟨h2, h3⟩
        · exact Or.inl h1
        · exact Or.inr ⟨List.mem_cons_of_mem _ h2, h3⟩
      · simp only [hp, if_neg, Bool.false_eq_true, if_false] at h
        rcases List.mem_cons.mp h with h1 | h1
        · exact Or.inl h1
        · rcases ih true h1 with h2 | ⟨h2, h3⟩
          · exact Or.inl h2
          · exact Or.inr ⟨List.mem_cons_of_mem _ h2, h3⟩
    · rw [if_neg ha] at h
      rcases List.mem_cons.mp h with h1 | h1
      · subst h1
        exact Or.inr ⟨List.mem_cons_self _ _, by simpa using ha⟩
      · rcases ih false h1 with h2 | ⟨h2, h3⟩
        · exact Or.inl h2
        · exact Or.inr ⟨List.mem_cons_of_mem _ h2, h3⟩

theorem collapseRuns_noConsec : ∀ (l : List Char) (p : Bool),
    noConsecHyphen (collapseRuns p l) = true ∧
      (p = true → (collapseRuns p l).head? ≠ some '-') := by
  intro l
  induction l with
  | nil => intro p; exact ⟨rfl, fun _ => by simp [collapseRuns]⟩
  | cons a rest ih =>
    intro p
    rw [collapseRuns]
    by_cases ha : isHS a
    · rw [if_pos ha]
      by_cases hp : p
      · subst hp
        rw [if_pos rfl]
        exact ⟨(ih true).1, fun _ => (ih true).2 rfl⟩
      · simp only [hp, Bool.false_eq_true, if_false]
        constructor
        · rw [noConsecHyphen]
          have hhd := (ih true).2 rfl
          rw [Bool.and_eq_true]
          constructor
          · simp only [Bool.not_eq_true']
            rw [Bool.and_eq_false_iff]
            right
            cases hh : (collapseRuns true rest).head? with
            | none => rfl
            | some x =>
              rw [hh] at hhd
              have : x ≠ '-' := fun he => hhd (by rw [he])
              simpa using this
          · exact (ih true).1
        · intro hpf; cases hpf
    · rw [if_neg ha]
      constructor
      · rw [noConsecHyphen, Bool.and_eq_true]
        constructor
        · simp only [Bool.not_eq_true']
          rw [Bool.and_eq_false_iff]
          left
          have : a ≠ '-' := by
            intro he; apply ha; rw [he]; rfl
          simpa using this
        · exact (ih false).1
      · intro _
        simp only [List.head?_cons, ne_eq, Option.some.injEq]
        intro he; apply ha; rw [he]; rfl

theorem collapseRuns_fix : ∀ (l : List Char),
    (∀ c ∈ l, (c == ' ') = false) → noConsecHyphen l = true →
    collapseRuns false l = l ∧
      (l.head? ≠ some '-' → collapseRuns true l = l) := by
  intro l
  induction l with
  | nil => intro _ _; exact ⟨rfl, fun _ => rfl⟩
  | cons a rest ih =>
    intro hns hnc
    rw [noConsecHyphen, Bool.and_eq_true] at hnc
    obtain ⟨hnc1, hnc2⟩ := hnc
    have hrest := ih (fun c hc => hns c (List.mem_cons_of_mem _ hc)) hnc2
    have hasp : (a == ' ') = false := hns a (List.mem_cons_self _ _)
    by_cases hd : a = '-'
    · subst hd
      constructor
      · rw [collapseRuns]
        rw [if_pos (by rfl), if_neg (by simp)]
        congr 1
        apply hrest.2
        simp only [Bool.not_eq_true'] at hnc1
        rw [Bool.and_eq_false_iff] at hnc1
        rcases hnc1 with h | h
        · simp at h
        · intro he
          rw [he] at h
          simp at h
      · intro hh
        exfalso
        simp at hh
    · have hhs : isHS a = false := by
        unfold isHS
        rw [Bool.or_eq_false_iff]
        refine ⟨?_, hasp⟩
        simpa using hd
      constructor
      · rw [collapseRuns, if_neg (by simp [hhs])]
        rw [hrest.1]
      · intro _
        rw [collapseRuns, if_neg (by simp [hhs])]
        rw [hrest.1]

theorem dropWhile_eq_self_of_all {l : List Char} (h : ∀ c ∈ l, (c == ' ') = false) :
    l.dropWhile (fun c => c == ' ') = l := by
  cases l with
  | nil => rfl
  | cons a rest =>
    rw [List.dropWhile_cons, h a (List.mem_cons_self _ _)]
    simp

theorem stripSpaces_eq_self {l : List Char} (h : ∀ c ∈ l, (c == ' ') = false) :
    stripSpaces l = l := by
  unfold stripSpaces
  rw [dropWhile_eq_self_of_all h]
  rw [dropWhile_eq_self_of_all (fun c hc => h c (List.mem_reverse.mp hc))]
  exact List.reverse_reverse l

theorem mem_stripSpaces {c : Char} {l : List Char} (h : c ∈ stripSpaces l) : c ∈ l := by
  unfold stripSpaces at h
  rw [List.mem_reverse] at h
  have h2 := (List.dropWhile_sublist _).subset h
  rw [List.mem_reverse] at h2
  exact (List.dropWhile_sublist _).subset h2

theorem mem_slugify {c : Char} {s : String} (h : c ∈ (slugify s).data) :
    c = '-' ∨ ((∃ d, c = Char.toLower d ∧ keepChar d = true) ∧ isHS c = false) := by
  unfold slugify at h
  rcases mem_collapseRuns false _ h with h1 | ⟨h1, h2⟩
  · exact Or.inl h1
  · right
    refine ⟨?_, h2⟩
    rcases List.mem_map.mp h1 with ⟨d, hd, hcd⟩
    refine ⟨d, hcd.symm, ?_⟩
    have := mem_stripSpaces hd
    exact (List.mem_filter.mp this).2

theorem slugify_noSpace {c : Char} {s : String} (h : c ∈ (slugify s).data) :
    (c == ' ') = false := by
  rcases mem_slugify h with h1 | ⟨_, h2⟩
  · subst h1; rfl
  · unfold isHS at h2
    rw [Bool.or_eq_false_iff] at h2
    exact h2.2

theorem slugify_notUpper {c : Char} {s : String} (h : c ∈ (slugify s).data) :
    c.isUpper = false := by
  rcases mem_slugify h with h1 | ⟨⟨d, hd, _⟩, _⟩
  · subst h1; rfl
  · subst hd; exact char_toLower_isUpper_false d

theorem slugify_keep {c : Char} {s : String} (h : c ∈ (slugify s).data) :
    keepChar c = true := by
  rcases mem_slugify h with h1 | ⟨⟨d, hd, hkd⟩, _⟩
  · subst h1; rfl
  · subst hd; exact keepChar_toLower hkd

theorem slugify_noSlash {c : Char} {s : String} (h : c ∈ (slugify s).data) :
    c ≠ '/' := by
  intro he
  have := slugify_keep h
  rw [he] at this
  exact absurd this (by decide)

theorem slugify_noConsec (s : String) : noConsecHyphen (slugify s).data = true :=
  (collapseRuns_noConsec _ false).1

theorem replaceSpaceHyphen_eq_self {s : String}
    (h : ∀ c ∈ s.data, (c == ' ') = false) : replaceSpaceHyphen s = s := by
  unfold replaceSpaceHyphen
  have : s.data.map (fun c => if c == ' ' then '-' else c) = s.data := by
    rw [List.map_congr_left (fun c hc => by rw [h c hc])]
    exact List.map_id _
  rw [this]

theorem slugify_fix (s : String) : slugify (slugify s) = slugify s := by
  conv_lhs => rw [slugify]
  have hfilter : (slugify s).data.filter keepChar = (slugify s).data :=
    List.filter_eq_self.mpr (fun _ hc => slugify_keep hc)
  rw [hfilter]
  rw [stripSpaces_eq_self (fun c hc => slugify_noSpace hc)]
  have hmap : (slugify s).data.map Char.toLower = (slugify s).data := by
    rw [List.map_congr_left
      (fun c hc => char_toLower_eq_self c (slugify_notUpper hc))]
    exact List.map_id _
  rw [hmap]
  rw [(collapseRuns_fix _ (fun c hc => slugify_noSpace hc) (slugify_noConsec s)).1]

theorem replaceSpaceHyphen_slugify (s : String) :
    replaceSpaceHyphen (slugify s) = slugify s :=
  replaceSpaceHyphen_eq_self (fun c hc => slugify_noSpace hc)

theorem slugOf_eq_slugify (slug : Option String) (title : String) :
    slugOf slug title = slugify (pyOrStr slug title) :=
  replaceSpaceHyphen_slugify _

/-! ## Helper lemmas: paths -/

theorem splitOnSlash_no_slash : ∀ (l : List Char), ('/' ∉ l) →
    splitOnSlash l = [l] := by
  intro l
  induction l with
  | nil => intro _; rfl
  | cons c rest ih =>
    intro h
    rw [splitOnSlash]
    have hrest : splitOnSlash rest = [rest] :=
      ih (fun hm => h (List.mem_cons_of_mem _ hm))
    rw [hrest]
    have hc : (c == '/') = false := by
      have : c ≠ '/' := fun he => h (he ▸ List.mem_cons_self c rest)
      simpa using this
    rw [hc]
    simp

theorem joinSegs_append_single (l : List String) (s : String) (h : l ≠ []) :
    joinSegs (l ++ [s]) = joinSegs l ++ "/" ++ s := by
  induction l with
  | nil => exact absurd rfl h
  | cons a rest ih =>
    cases rest with
    | nil => rfl
    | cons b rest2 =>
      have : joinSegs ((a :: b :: rest2) ++ [s]) = a ++ "/" ++ joinSegs ((b :: rest2) ++ [s]) := rfl
      rw [this, ih (by simp)]
      have h2 : joinSegs (a :: b :: rest2) = a ++ "/" ++ joinSegs (b :: rest2) := rfl
      rw [h2]
      simp [String.append_assoc]

theorem joinPath_emptyBase (q : PurePath) : joinPath ⟨false, []⟩ q = q := by
  unfold joinPath
  by_cases h : q.absolute
  · rw [if_pos h]
  · rw [if_neg h]
    cases q with
    | mk a p => simp at h; simp [h]

theorem parsePath_single (s : String) (hns : '/' ∉ s.data)
    (hne : (s == "") = false) (hnd : (s == ".") = false) :
    parsePath s = ⟨false, [s]⟩ := by
  unfold parsePath
  rw [splitOnSlash_no_slash s.data hns]
  have habs : (s.data.head? == some '/') = false := by
    cases hd : s.data with
    | nil => simp
    | cons c rest =>
      have : c ≠ '/' := by
        intro he; apply hns; rw [hd, he]; exact List.mem_cons_self _ _
      simpa using this
  rw [habs]
  have hmk : String.mk s.data = s := rfl
  simp only [List.map_cons, List.map_nil, hmk]
  rw [List.filter_cons]
  rw [hne, hnd]
  simp

theorem pathToString_join (P : PurePath) (seg : String) (hP : P.parts ≠ []) :
    pathToString (joinPath P ⟨false, [seg]⟩) = pathToString P ++ "/" ++ seg := by
  unfold joinPath
  simp only [if_neg]
  show pathToString ⟨P.absolute, P.parts ++ [seg]⟩ = _
  unfold pathToString
  by_cases ha : P.absolute
  · simp only [ha, if_pos]
    rw [joinSegs_append_single _ _ hP]
    simp [String.append_assoc]
  · simp only [ha]
    have h1 : (P.parts ++ [seg] == []) = false := by
      simp
    have h2 : (P.parts == []) = false := by
      simpa using hP
    simp only [h1, h2, Bool.false_eq_true, if_false, if_neg]
    rw [joinSegs_append_single _ _ hP]

/-! ## Claims -/

/-- C1: `validate` raises an error if and only if the supplied markup
    string, compared case-insensitively, is not in {"md", "rst"}: it
    raises exactly when the lower-casing is neither "md" nor "rst", and
    returns normally exactly when the lower-casing is one of the two. -/
theorem C1_validate_raises_iff (markup : String) :
    (raisesError (validate markup) = true ↔
      ¬(pyLower markup = "md" ∨ pyLower markup = "rst")) ∧
    (validate markup = Except.ok () ↔
      (pyLower markup = "md" ∨ pyLower markup = "rst")) := by
  have hmem : pyLower markup ∈ MARKUP_CHOICES ↔
      (pyLower markup = "md" ∨ pyLower markup = "rst") := by
    simp [MARKUP_CHOICES]
  unfold validate
  by_cases h : pyLower markup ∈ MARKUP_CHOICES
  · rw [if_neg (by simpa using h)]
    constructor
    · constructor
      · intro hr; cases hr
      · intro hc; exact absurd (hmem.mp h) hc
    · exact ⟨fun _ => hmem.mp h, fun _ => rfl⟩
  · rw [if_pos (by simpa using h)]
    constructor
    · constructor
      · intro _; exact fun hc => h (hmem.mpr hc)
      · intro _; rfl
    · constructor
      · intro he; cases he
      · intro hc; exact absurd (hmem.mpr hc) h

/-- Witness for C1 at concrete inputs: "txt" raises, "MD" is accepted. -/
theorem C1_validate_raises_iff_witness :
    raisesError (validate "txt") = true ∧ validate "MD" = Except.ok () :=
  ⟨(C1_validate_raises_iff "txt").1.mpr (by decide),
   (C1_validate_raises_iff "MD").2.mpr (by decide)⟩

/-- C4: every character of the derived slug
    (`slugify(slug or title).replace(" ", "-")`) is a non-space,
    non-uppercase character kept by the slug normalizer (a lowercase word
    character or a hyphen): the slug is lowercase, space-free and
    hyphenated. -/
theorem C4_slug_charset (slug : Option String) (title : String) :
    ∀ c ∈ (slugOf slug title).data,
      c ≠ ' ' ∧ c.isUpper = false ∧ keepChar c = true := by
  intro c hc
  rw [slugOf_eq_slugify] at hc
  refine ⟨?_, slugify_notUpper hc, slugify_keep hc⟩
  have := slugify_noSpace hc
  simpa using this

/-- Witness for C4 at the title "Hello World". -/
theorem C4_slug_charset_witness :
    'h' ∈ (slugOf none "Hello World").data ∧
      'h' ≠ ' ' ∧ Char.isUpper 'h' = false ∧ keepChar 'h' = true :=
  ⟨by decide, C4_slug_charset none "Hello World" 'h' (by decide)⟩

/-- C5: slug derivation is idempotent: for every derived slug S,
    `slugify(S).replace(" ", "-")` equals S, and re-running the generator
    derivation with S supplied as the explicit slug derives S again
    (whenever S is non-empty, so that the falsy-slug fallback to the title
    does not fire). -/
theorem C5_slug_idempotent (slug : Option String) (title : String) :
    replaceSpaceHyphen (slugify (slugOf slug title)) = slugOf slug title ∧
    (slugOf slug title ≠ "" →
      slugOf (some (slugOf slug title)) title = slugOf slug title) := by
  have h1 : replaceSpaceHyphen (slugify (slugOf slug title)) = slugOf slug title := by
    rw [slugOf_eq_slugify, slugify_fix, replaceSpaceHyphen_slugify]
  refine ⟨h1, fun hne => ?_⟩
  have hp : pyOrStr (some (slugOf slug title)) title = slugOf slug title := by
    show (if slugOf slug title == "" then title else slugOf slug title) = slugOf slug title
    rw [if_neg (by simpa using hne)]
  show replaceSpaceHyphen (slugify (pyOrStr (some (slugOf slug title)) title)) = _
  rw [hp, h1]

/-- Witness for C5 at the title "Hello World". -/
theorem C5_slug_idempotent_witness :
    slugOf none "Hello World" ≠ "" ∧
      slugOf (some (slugOf none "Hello World")) "Hello World" =
        slugOf none "Hello World" :=
  ⟨by decide, (C5_slug_idempotent none "Hello World").2 (by decide)⟩

/-- C6: with title="Hello World", tags="a,b", category="news", markup="md"
    the generator selects the markdown header builder and invokes it with
    the supplied author, the tag list ["a","b"], the category list
    ["news"] and the slug "hello-world". -/
theorem C6_hello_world (content_type : Option String) (author : Option String)
    (path : String) (status : Option String) (now : DateTime) :
    (generate_article_call content_type "Hello World" none (some "a,b") "md"
        (some "news") author path status now).formatter = Formatter.markdown ∧
    (generate_article_call content_type "Hello World" none (some "a,b") "md"
        (some "news") author path status now).header.author = author ∧
    (generate_article_call content_type "Hello World" none (some "a,b") "md"
        (some "news") author path status now).header.tags = some ["a", "b"] ∧
    (generate_article_call content_type "Hello World" none (some "a,b") "md"
        (some "news") author path status now).header.categories = some ["news"] ∧
    (generate_article_call content_type "Hello World" none (some "a,b") "md"
        (some "news") author path status now).header.slug = "hello-world" :=
  ⟨rfl, rfl, rfl, rfl, rfl⟩

/-- C9: an explicit slug that is the empty string is ignored: the whole
    generator result with slug="" equals the result with no slug, and the
    slug is then derived from the title. -/
theorem C9_empty_slug_ignored (content_type : Option String) (title : String)
    (tags : Option String) (markup : String) (category : Option String)
    (author : Option String) (path : String) (status : Option String)
    (now : DateTime) :
    generate_article_call content_type title (some "") tags markup category
        author path status now =
      generate_article_call content_type title none tags markup category
        author path status now ∧
    (generate_article_call content_type title none tags markup category
        author path status now).header.slug =
      replaceSpaceHyphen (slugify title) :=
  ⟨rfl, rfl⟩

/-- C10: empty tags and category collapse to absent: with tags `None` or
    `""` the header builder receives `None` for the tag list, and with
    category `None` or `""` it receives `None` for the category list. -/
theorem C10_falsy_tags_category (content_type : Option String) (title : String)
    (slug : Option String) (markup : String) (tags : Option String)
    (category : Option String) (author : Option String) (path : String)
    (status : Option String) (now : DateTime) :
    (generate_article_call content_type title slug none markup category author
        path status now).header.tags = none ∧
    (generate_article_call content_type title slug (some "") markup category
        author path status now).header.tags = none ∧
    (generate_article_call content_type title slug tags markup none author
        path status now).header.categories = none ∧
    (generate_article_call content_type title slug tags markup (some "")
        author path status now).header.categories = none :=
  ⟨rfl, rfl, rfl, rfl⟩


/-- C2: the generator passes a date to the header builder iff
    content_type is "article": for "page" the date argument is None, for
    "article" it is the minute-precision timestamp of `datetime.now()`. -/
theorem C2_date_iff_article (content_type : Option String) (title : String)
    (slug tags : Option String) (markup : String)
    (category author : Option String) (path : String) (status : Option String)
    (now : DateTime) :
    (((generate_article_call content_type title slug tags markup category
        author path status now).header.date).isSome = true ↔
      content_type = some "article") ∧
    (content_type = some "page" →
      (generate_article_call content_type title slug tags markup category
        author path status now).header.date = none) ∧
    (content_type = some "article" →
      (generate_article_call content_type title slug tags markup category
        author path status now).header.date = some (strftimeMinute now)) := by
  have hdate : (generate_article_call content_type title slug tags markup
      category author path status now).header.date =
      if content_type == some "article" then some (strftimeMinute now) else none := rfl
  by_cases h : (content_type == some "article") = true
  · have he : content_type = some "article" := by simpa using h
    refine ⟨?_, ?_, ?_⟩
    · rw [hdate, if_pos h]
      simp [he]
    · intro hp
      rw [he] at hp
      simp at hp
    · intro _
      rw [hdate, if_pos h]
  · have hne : content_type ≠ some "article" := by simpa using h
    refine ⟨?_, ?_, ?_⟩
    · rw [hdate, if_neg (by simpa using hne)]
      simp [hne]
    · intro _
      rw [hdate, if_neg (by simpa using hne)]
    · intro hp
      exact absurd hp hne

/-- Witness for C2: a page gets no date, an article gets the formatted
    current time. -/
theorem C2_date_iff_article_witness :
    (generate_article_call (some "page") "T" none none "md" none none
        "content" none ⟨2024, 1, 2, 3, 4, 5⟩).header.date = none ∧
    (generate_article_call (some "article") "T" none none "md" none none
        "content" none ⟨2024, 1, 2, 3, 4, 5⟩).header.date =
      some (strftimeMinute ⟨2024, 1, 2, 3, 4, 5⟩) :=
  ⟨(C2_date_iff_article (some "page") "T" none none "md" none none "content"
      none ⟨2024, 1, 2, 3, 4, 5⟩).2.1 rfl,
   (C2_date_iff_article (some "article") "T" none none "md" none none
      "content" none ⟨2024, 1, 2, 3, 4, 5⟩).2.2 rfl⟩

/-- C3 fails as stated: with the trailing-slash path "content/" the
    returned file path is "content/my-post.md" (pathlib drops the empty
    segment), not `<path>/<slug>.<markup>` = "content//my-post.md". -/
theorem C3_counterexample :
    slugOf none "my post" = "my-post" ∧
    (generate_article (fun _ => "") (fun _ => "") none "my post" none none
        "md" none none "content/" none ⟨2024, 1, 2, 3, 4, 5⟩).2 =
      "content/my-post.md" ∧
    ("content/my-post.md" : String) ≠ "content/" ++ "/" ++ "my-post" ++ "." ++ "md" :=
  ⟨by decide, by decide, by decide⟩

theorem pyLower_no_slash_ne_nil {markup : String}
    (h : pyLower markup ∈ MARKUP_CHOICES) :
    '/' ∉ markup.data ∧ markup.data ≠ [] := by
  have hcase : pyLower markup = "md" ∨ pyLower markup = "rst" := by
    simpa [MARKUP_CHOICES] using h
  have hdata : markup.data.map Char.toLower = ("md" : String).data ∨
      markup.data.map Char.toLower = ("rst" : String).data := by
    rcases hcase with h1 | h1
    · left
      have := congrArg String.data h1
      simpa [pyLower] using this
    · right
      have := congrArg String.data h1
      simpa [pyLower] using this
  constructor
  · intro hm
    have hmem : Char.toLower '/' ∈ markup.data.map Char.toLower :=
      List.mem_map_of_mem _ hm
    rcases hdata with h1 | h1
    · rw [h1] at hmem
      exact absurd hmem (by decide)
    · rw [h1] at hmem
      exact absurd hmem (by decide)
  · intro hnil
    rcases hdata with h1 | h1
    · rw [hnil] at h1
      exact absurd h1 (by decide)
    · rw [hnil] at h1
      exact absurd h1 (by decide)

theorem validate_ok_mem {markup : String} (h : validate markup = Except.ok ()) :
    pyLower markup ∈ MARKUP_CHOICES := by
  by_contra hn
  unfold validate at h
  rw [if_pos hn] at h
  cases h

/-- C3 amended: for every validated request whose path string is in
    pathlib normal form (it parses back to itself and has at least one
    component), the returned file path is `<path>/<slug>.<markup>`. -/
theorem C3_amended_filePath (bh bmh : HeaderArgs → String)
    (content_type : Option String) (title : String) (slug tags : Option String)
    (markup : String) (category author : Option String) (path : String)
    (status : Option String) (now : DateTime)
    (hval : validate markup = Except.ok ())
    (hparts : (parsePath path).parts ≠ [])
    (hround : pathToString (parsePath path) = path) :
    (generate_article bh bmh content_type title slug tags markup category
        author path status now).2 =
      path ++ "/" ++ slugOf slug title ++ "." ++ markup := by
  obtain ⟨hns, hnn⟩ := pyLower_no_slash_ne_nil (validate_ok_mem hval)
  set seg := slugOf slug title ++ "." ++ markup with hseg
  have hsegdata : seg.data = (slugOf slug title).data ++ '.' :: markup.data := by
    rw [hseg, str_data_append, str_data_append]
    simp
  have hsegns : '/' ∉ seg.data := by
    rw [hsegdata]
    intro hm
    rcases List.mem_append.mp hm with h1 | h1
    · rw [slugOf_eq_slugify] at h1
      exact slugify_noSlash h1 rfl
    · rcases List.mem_cons.mp h1 with h2 | h2
      · cases h2
      · exact hns h2
  have hsegne : (seg == "") = false := by
    have : seg.data ≠ [] := by
      rw [hsegdata]
      intro he
      have := congrArg List.length he
      simp at this
    simpa [str_eq_iff_data] using this
  have hsegnd : (seg == ".") = false := by
    have hd : seg.data ≠ ['.'] := by
      rw [hsegdata]
      intro he
      cases hm : markup.data with
      | nil => exact hnn hm
      | cons x xs =>
        rw [hm] at he
        have hlen := congrArg List.length he
        rw [List.length_append] at hlen
        simp only [List.length_cons, List.length_nil] at hlen
        omega
    have hne : seg ≠ "." := by
      intro he
      exact hd (by rw [he])
    simpa using hne
  have hfp : (generate_article bh bmh content_type title slug tags markup
      category author path status now).2 =
      pathToString (joinPath (joinPath ⟨false, []⟩ (parsePath path))
        (parsePath seg)) := rfl
  rw [hfp, joinPath_emptyBase, parsePath_single seg hsegns hsegne hsegnd,
    pathToString_join _ _ hparts, hround, hseg]
  rw [← String.append_assoc, ← String.append_assoc]

/-- Witness for C3 amended at path="content", slug "my-post", markup "md". -/
theorem C3_amended_filePath_witness :
    validate "md" = Except.ok () ∧
    (parsePath "content").parts ≠ [] ∧
    pathToString (parsePath "content") = "content" ∧
    (generate_article (fun _ => "") (fun _ => "") none "my post" none none
        "md" none none "content" none ⟨2024, 1, 2, 3, 4, 5⟩).2 =
      "content" ++ "/" ++ slugOf none "my post" ++ "." ++ "md" :=
  ⟨rfl, by decide, by decide,
   C3_amended_filePath (fun _ => "") (fun _ => "") none "my post" none none
     "md" none none "content" none ⟨2024, 1, 2, 3, 4, 5⟩ rfl (by decide) (by decide)⟩

/-- C7: when `validate` raises, `main` aborts before any file I/O: the
    filesystem is unchanged and the pipeline result is the raised error. -/
theorem C7_abort_before_io (bh bmh : HeaderArgs → String) (prompt : Bool)
    (kwargs : Args) (answers : PromptAnswers) (reviewed : String → String)
    (now : DateTime) (fs : FS)
    (hra : raisesError (validate (parsedArgs prompt kwargs answers).markup) = true) :
    (main bh bmh prompt kwargs answers reviewed now fs).2 = fs ∧
      raisesError ((main bh bmh prompt kwargs answers reviewed now fs).1.map
        (fun _ => ())) = true := by
  cases hv : validate (parsedArgs prompt kwargs answers).markup with
  | error e =>
    have hm : main bh bmh prompt kwargs answers reviewed now fs =
        (Except.error e, fs) := by
      simp only [main, hv]
    rw [hm]
    exact ⟨rfl, rfl⟩
  | ok v =>
    rw [hv] at hra
    simp [raisesError] at hra

/-- Witness for C7: markup "txt" aborts with the filesystem untouched. -/
theorem C7_abort_before_io_witness :
    raisesError (validate (parsedArgs false
        ⟨"T", none, none, some "", none, none, none, "content", "txt"⟩
        ⟨"article", "T", "a", "", "", "", "draft", "md", "content"⟩).markup) = true ∧
    (main (fun _ => "") (fun _ => "") false
        ⟨"T", none, none, some "", none, none, none, "content", "txt"⟩
        ⟨"article", "T", "a", "", "", "", "draft", "md", "content"⟩
        id ⟨2024, 1, 2, 3, 4, 5⟩ []).2 = [] :=
  ⟨by decide,
   (C7_abort_before_io (fun _ => "") (fun _ => "") false
     ⟨"T", none, none, some "", none, none, none, "content", "txt"⟩
     ⟨"article", "T", "a", "", "", "", "draft", "md", "content"⟩
     id ⟨2024, 1, 2, 3, 4, 5⟩ [] (by decide)).1⟩

/-- C8 fails as stated: in non-interactive mode an empty title is not
    rejected — the run reaches the generator (and even writes a file)
    with title "". -/
theorem C8_counterexample :
    (main (fun _ => "x") (fun _ => "x") false
        ⟨"", none, none, some "", none, none, none, "content", "md"⟩
        ⟨"article", "T", "a", "", "", "", "draft", "md", "content"⟩
        id ⟨2024, 1, 2, 3, 4, 5⟩ []).1 =
      Except.ok (generate_article_call none "" none (some "") "md" none none
        "content" none ⟨2024, 1, 2, 3, 4, 5⟩) ∧
    (generate_article_call none "" none (some "") "md" none none "content"
        none ⟨2024, 1, 2, 3, 4, 5⟩).header.title = "" ∧
    (main (fun _ => "x") (fun _ => "x") false
        ⟨"", none, none, some "", none, none, none, "content", "md"⟩
        ⟨"article", "T", "a", "", "", "", "draft", "md", "content"⟩
        id ⟨2024, 1, 2, 3, 4, 5⟩ []).2 ≠ [] := by
  refine ⟨rfl, rfl, by decide⟩

/-- C8 amended: the emptiness check on the title exists only in
    interactive mode: there the title prompt validator only accepts
    non-empty titles, so the parsed arguments (and hence any generator
    call of the run) carry a non-empty title. -/
theorem C8_amended_interactive_title (bh bmh : HeaderArgs → String)
    (kwargs : Args) (answers : PromptAnswers) (reviewed : String → String)
    (now : DateTime) (fs : FS)
    (hacc : titleQuestionValidate answers.title = Sum.inl true) :
    (parsedArgs true kwargs answers).title ≠ "" ∧
    (main bh bmh true kwargs answers reviewed now fs).1.map
        (fun r => r.header.title) ≠ Except.ok "" := by
  have htitle : answers.title ≠ "" := by
    intro he
    rw [titleQuestionValidate, if_pos (by simpa using he)] at hacc
    cases hacc
  constructor
  · exact htitle
  · cases hv : validate (parsedArgs true kwargs answers).markup with
    | error e =>
      have hm : (main bh bmh true kwargs answers reviewed now fs).1 =
          Except.error e := by
        simp only [main, hv]
      rw [hm]
      intro hc
      cases hc
    | ok v =>
      have hm : (main bh bmh true kwargs answers reviewed now fs).1 =
          Except.ok (generate_article_call
            (parsedArgs true kwargs answers).content_type
            (parsedArgs true kwargs answers).title
            (parsedArgs true kwargs answers).slug
            (parsedArgs true kwargs answers).tags
            (parsedArgs true kwargs answers).markup
            (parsedArgs true kwargs answers).category
            (parsedArgs true kwargs answers).author
            (parsedArgs true kwargs answers).path
            (parsedArgs true kwargs answers).status now) := by
        simp only [main, hv]
      rw [hm]
      simp only [Except.map]
      intro hc
      have h2 : answers.title = "" := Except.ok.inj hc
      exact htitle h2

/-- Witness for C8 amended: the accepted answer "Hello" yields a
    non-empty parsed title. -/
theorem C8_amended_interactive_title_witness :
    titleQuestionValidate "Hello" = Sum.inl true ∧
    (parsedArgs true ⟨"", none, none, some "", none, none, none, "content", "md"⟩
        ⟨"article", "Hello", "a", "", "", "", "draft", "md", "content"⟩).title ≠ "" :=
  ⟨by decide,
   (C8_amended_interactive_title (fun _ => "") (fun _ => "")
     ⟨"", none, none, some "", none, none, none, "content", "md"⟩
     ⟨"article", "Hello", "a", "", "", "", "draft", "md", "content"⟩
     id ⟨2024, 1, 2, 3, 4, 5⟩ [] (by decide)).1⟩


end PelicanTools
